import Mathlib

/-!
Shallow embedding of `src/main.py` (am-wedding-backend): a FastAPI service
whose store is a Google-Sheets spreadsheet accessed through gspread.

Worksheet cells are modelled as the strings gspread reads back with formatted
rendering: a Python `None` written to a cell and a never-written cell both
read back as the empty string `""`; a Python `True` / `False` written with
`value_input_option USER_ENTERED` becomes a sheet boolean and reads back as
`"TRUE"` / `"FALSE"`.  Numbers round-trip through the sheet, and
`json.loads` inverts `json.dumps`; where those external library round-trips
matter (the RSVP sheet) the rows are modelled at the level of the decoded
values, with the Python truthiness tests of the handlers made explicit.
-/

namespace Wedding

/-- A worksheet row: its cell values, as gspread `row_values` returns them.
Addressed individually, a cell past the end of the row reads as `""`. -/
abbrev Row := List String

/-- A worksheet handle: `ws.row_count` (the allocated grid rows, `100` for a
worksheet freshly created by `get_worksheet`) plus the rows holding data. -/
structure Ws where
  rowCount : Nat
  rows : List Row
deriving DecidableEq

/-- `ws.row_values(n)` (1-based): the values of row `n`, `[]` for a blank or
out-of-grid row. -/
def rowValues (ws : Ws) (n : Nat) : Row := ws.rows.getD (n - 1) []

/-- Cell `c` (0-based) of a row; an absent cell reads as `""`. -/
def cellOfRow (r : Row) (c : Nat) : String := r.getD c ""

/-- Cell value of worksheet `ws` at 0-based row `r`, 0-based column `c`
(sheet coordinates are these plus one). -/
def cellVal (ws : Ws) (r c : Nat) : String := cellOfRow (ws.rows.getD r []) c

/-- `ws.update([headers])`: overwrite row 1 cell-by-cell with the header row
(cells of row 1 beyond the written width keep their values). -/
def updateFirstRow (ws : Ws) (headers : Row) : Ws :=
  { ws with rows := (headers ++ (ws.rows.headD []).drop headers.length) :: ws.rows.tail }

/-- The header-ensuring step shared by the three register endpoints:
`if ws.row_count < 2 or not ws.row_values(1): ws.update([headers])`
(a Python list is falsy exactly when it is empty). -/
def ensureHeader (ws : Ws) (headers : Row) : Ws :=
  if ws.rowCount < 2 ∨ rowValues ws 1 = [] then updateFirstRow ws headers else ws

/-- `ws.append_row(row)`: the row lands right after the last row with data,
growing the grid when needed. -/
def appendRow (ws : Ws) (r : Row) : Ws :=
  { rowCount := max ws.rowCount (ws.rows.length + 1), rows := ws.rows ++ [r] }

/-- `ws.append_rows(rows)`: one batch append of several rows. -/
def appendRows (ws : Ws) (rs : List Row) : Ws :=
  { rowCount := max ws.rowCount (ws.rows.length + rs.length), rows := ws.rows ++ rs }

/-- A record as returned by `ws.get_all_records()`: field name to cell value
in header order.  The canonical header rows of this app have pairwise
distinct names, so first-match association-list lookup coincides with the
Python dict built from the same pairs. -/
abbrev Rec := List (String × String)

/-- One record of `get_all_records`: header name `k` maps to cell `k` of the
data row, short rows being padded with the default blank `""` and cells
beyond the header width being dropped. -/
def recOfRow (headers r : Row) : Rec :=
  (List.range headers.length).map (fun k => (headers.getD k "", cellOfRow r k))

/-- `ws.get_all_records()`: row 1 is the header row, each later row becomes
one record; a sheet with no rows yields no records. -/
def getAllRecords (ws : Ws) : List Rec :=
  match ws.rows with
  | [] => []
  | h :: t => t.map (recOfRow h)

/-- Python `record.get(k)`: the value stored under `k`, defaulting when the
key is absent (`None` compares unequal to every string the handlers compare
against, which the default `""` also does). -/
def getField (r : Rec) (k : String) : String :=
  ((r.find? (fun p => p.1 == k)).map Prod.snd).getD ""

/-- Python `record[k]`: `none` models the `KeyError` on an absent key. -/
def getKey (r : Rec) (k : String) : Option String :=
  (r.find? (fun p => p.1 == k)).map Prod.snd

/-- `row_to_dict(headers, row)`: the dict comprehension over
`range(len(headers))` reading `row[i]`; `none` models the `IndexError`
raised as soon as the row is shorter than the headers. -/
def row_to_dict (headers row : Row) : Option Rec :=
  if headers.length ≤ row.length then some (headers.zip row) else none

/-- One Python slice endpoint resolved against a list of length `len`
(`slice.indices` semantics for step 1: negative endpoints count from the
end, then both are clamped into `[0, len]`). -/
def pyIndex (len : Nat) (i : Int) : Nat :=
  if i < 0 then ((len : Int) + i).toNat else min i.toNat len

/-- Python `l[i:j]` for integer endpoints and step 1. -/
def pySlice {α : Type} (l : List α) (i j : Int) : List α :=
  (l.drop (pyIndex l.length i)).take (pyIndex l.length j - pyIndex l.length i)

/-- First 0-based index at which `p` holds, scanning top-down; gspread
`ws.find(q, in_column=1)` returns the cell of this row (or nothing). -/
def findFirstIdx {α : Type} (p : α → Bool) : List α → Option Nat
  | [] => none
  | x :: xs => if p x then some 0 else (findFirstIdx p xs).map (· + 1)

/-- The column-1 cell of a row, as `ws.find(q, in_column=1)` compares it; a
row with no first cell has the empty value there. -/
def firstCell (r : Row) : String := r.headD ""

/-- gspread `ws.find(str(id), in_column=1)`: 0-based index of the first row
— the header row included — whose column-1 cell equals the query. -/
def findRowById (ws : Ws) (q : String) : Option Nat :=
  findFirstIdx (fun r => firstCell r == q) ws.rows

/-- Write cell `c` (0-based) of a row; writing past the end of the row
materialises the blank cells before it. -/
def setCellInRow (r : Row) (c : Nat) (v : String) : Row :=
  if c < r.length then r.set c v
  else r ++ List.replicate (c - r.length) "" ++ [v]

/-- The `GiftPublic` response model. -/
structure GiftPublic where
  id : String
  name : String
  image_url : String
deriving DecidableEq

/-- The `GiftRequest` body model. -/
structure GiftRequest where
  name : String
  image_url : String
deriving DecidableEq

/-- Canonical header row of the `gifts` worksheet. -/
def giftHeaders : Row := ["id", "name", "image_url", "available", "purchased", "updated_at"]

/-- Canonical header row of the `rsvp` worksheet. -/
def rsvpHeaders : Row := ["full_name", "status", "phone", "companions", "created_at"]

/-- Canonical header row of the `testimonials` worksheet. -/
def testimonialHeaders : Row := ["full_name", "message", "created_at"]

/-- Comparator of `available_gifts.sort(key=lambda x: x['name'])`: ascending
by the `name` field (Python compares strings by code points, as Lean's
`String` order does). -/
def nameLe (a b : Rec) : Bool := decide (getField a "name" ≤ getField b "name")

/-- The projection `GiftPublic(id=g['id'], name=g['name'],
image_url=g['image_url'])`. -/
def projGift (g : Rec) : GiftPublic :=
  ⟨getField g "id", getField g "name", getField g "image_url"⟩

/-- The records whose available cell is literally `"TRUE"`, sorted ascending
by name: the value `available_gifts` holds after the filter and the (stable)
in-place sort in `list_available_gifts`. -/
def availableSorted (records : List Rec) : List Rec :=
  (records.filter (fun r => getField r "available" == "TRUE")).mergeSort nameLe

/-- Body of `list_available_gifts` (GET /gifts) after the fetch: filter to
the records whose available cell equals `"TRUE"`, sort ascending by name,
slice `[start:end]` with `start = (page - 1) * limit`, `end = start + limit`,
and project each survivor to `GiftPublic`. -/
def list_available_records (records : List Rec) (page limit : Int) : List GiftPublic :=
  (pySlice (availableSorted records) ((page - 1) * limit) ((page - 1) * limit + limit)).map projGift

/-- `list_available_gifts` (GET /gifts): fetch, then the record pipeline. -/
def list_available_gifts (ws : Ws) (page limit : Int) : List GiftPublic :=
  list_available_records (getAllRecords ws) page limit

/-- Body of `list_testimonials` (GET /testimonials) after the fetch: the raw
records sliced `[start:end]`, no filtering, no sorting, no re-projection. -/
def list_testimonials_records (records : List Rec) (page limit : Int) : List Rec :=
  pySlice records ((page - 1) * limit) ((page - 1) * limit + limit)

/-- The three `update_cell` point-writes of `update_gift_purchased` on the
matched row: sheet columns 4, 5, 6 — 0-based cells 3, 4, 5 — become the
stored Python `False` (read back `"FALSE"`), the buyer's name, and now. -/
def purchasedRow (r : Row) (buyer now : String) : Row :=
  setCellInRow (setCellInRow (setCellInRow r 3 "FALSE") 4 buyer) 5 now

/-- `update_gift_purchased` (PATCH /gifts/purchased): find the row whose
column-1 cell equals the id (`.error ()` models the 404 when there is none),
then apply the three point-writes of `purchasedRow` to that row. -/
def update_gift_purchased (ws : Ws) (idStr buyer now : String) : Except Unit Ws :=
  match findRowById ws idStr with
  | none => .error ()
  | some i =>
      let r := ws.rows.getD i []
      .ok { ws with rows := ws.rows.set i (purchasedRow r buyer now) }

/-- `get_gift_by_id` (GET /gifts/\x7bid\x7d): find by the id column (404
when absent), decode the found row against the live header row with
`row_to_dict`, and project; the `IndexError` of a too-short row and the
`KeyError` of a missing field both surface as errors. -/
def get_gift_by_id (ws : Ws) (idStr : String) : Except String GiftPublic :=
  match findRowById ws idStr with
  | none => .error "not_found"
  | some i =>
      match row_to_dict (rowValues ws 1) (ws.rows.getD i []) with
      | none => .error "index_error"
      | some d =>
          match getKey d "id", getKey d "name", getKey d "image_url" with
          | some a, some b, some c => .ok ⟨a, b, c⟩
          | _, _, _ => .error "key_error"

/-- `register_gifts` (POST /gifts): ensure the gifts header row; build one
row per request — the freshly generated `uuid4` id (modelled by the supplied
list of generated ids, one per item), the name, the image url, available
`True` (stored `"TRUE"`), purchased `None` (stored as the empty cell), and
updated_at now — then append them all in one `append_rows` batch.  The
second component is the count `len(gifts)` reported by the acknowledgment
message. -/
def register_gifts (ws : Ws) (gifts : List GiftRequest) (ids : List String)
    (now : String) : Ws × Nat :=
  let ws1 := ensureHeader ws giftHeaders
  let rows := (gifts.zip ids).map
    (fun gi => [gi.2, gi.1.name, gi.1.image_url, "TRUE", "", now])
  (appendRows ws1 rows, gifts.length)

/-- The `RSVPStatus` str-enum; as a `str` subclass it compares equal to its
value string, which is what the status cell stores. -/
inductive RSVPStatus
  | confirmed
  | declined
deriving DecidableEq

/-- The stored cell value of a status. -/
def RSVPStatus.cell : RSVPStatus → String
  | .confirmed => "confirmed"
  | .declined => "declined"

/-- The `PersonType` str-enum. -/
inductive PersonType
  | adult
  | child
deriving DecidableEq

/-- The `Companion` body model. -/
structure Companion where
  full_name : String
  person : PersonType
deriving DecidableEq

/-- The `RSVPRequest` body model (`companions` is `Optional`). -/
structure RSVPRequest where
  full_name : String
  status : RSVPStatus
  phone : Int
  companions : Option (List Companion)
deriving DecidableEq

/-- The `RSVP` response model: the request fields plus `created_at`. -/
structure RSVP extends RSVPRequest where
  created_at : String
deriving DecidableEq

/-- A stored `rsvp` data row at the level of the decoded values.  The
companions cell physically holds `json.dumps` of a list when one was
written and is empty otherwise; `json.dumps` of a list is never the empty
string and `json.loads` inverts it, so the cell is modelled by the value it
decodes to, `none` standing for the empty cell.  The phone cell round-trips
through the sheet as a number. -/
structure RSVPRow where
  full_name : String
  status : RSVPStatus
  phone : Int
  companions : Option (List Companion)
  created_at : String
deriving DecidableEq

/-- Python truthiness of the optional companions list: `None` and `[]` are
both falsy. -/
def companionsTruthy : Option (List Companion) → Bool
  | none => false
  | some cs => !cs.isEmpty

/-- `register_rsvp` (POST /rsvp) at the decoded-row level (the header-row
upkeep of the same handler is `register_rsvp_ws`): the companions cell gets
`json.dumps([...]) if rsvp_data.companions else None`, and the encoded row
is appended. -/
def register_rsvp (sheet : List RSVPRow) (req : RSVPRequest) (now : String) :
    List RSVPRow :=
  sheet ++ [⟨req.full_name, req.status, req.phone,
    if companionsTruthy req.companions then req.companions else none, now⟩]

/-- `list_rsvps` (GET /rsvp): keep the records whose status cell equals the
query, decode the companions cell (`json.loads(cell)` when the cell is a
non-empty string, else `None`), and return them in fetch order. -/
def list_rsvps (sheet : List RSVPRow) (st : RSVPStatus) : List RSVP :=
  (sheet.filter (fun r => decide (r.status = st))).map
    (fun r => ⟨⟨r.full_name, r.status, r.phone, r.companions⟩, r.created_at⟩)

/-- `register_rsvp` (POST /rsvp) at the worksheet level: ensure the rsvp
header row, then append the encoded row. `dumps` stands for the JSON
serialisation `json.dumps` of the companions; the phone number is written as
a number and shown here through `toString`. -/
def register_rsvp_ws (ws : Ws) (req : RSVPRequest)
    (dumps : List Companion → String) (now : String) : Ws :=
  appendRow (ensureHeader ws rsvpHeaders)
    [req.full_name, req.status.cell, toString req.phone,
      if companionsTruthy req.companions then dumps (req.companions.getD []) else "",
      now]

/-- `register_testimonial` (POST /testimonials): ensure the testimonials
header row, then append the row. -/
def register_testimonial_ws (ws : Ws) (full_name message now : String) : Ws :=
  appendRow (ensureHeader ws testimonialHeaders) [full_name, message, now]

/-- The 401 challenge raised by `get_current_user`: status code and the
value of the `WWW-Authenticate` response header. -/
structure AuthChallenge where
  status_code : Nat
  www_authenticate : String
deriving DecidableEq

/-- `get_current_user`: compare the submitted basic credentials against the
two configured secrets with exact string equality; on any mismatch raise
401 Unauthorized carrying the `WWW-Authenticate: Basic` challenge header,
else return the username. -/
def get_current_user (apiUser apiPassword username password : String) :
    Except AuthChallenge String :=
  if username ≠ apiUser ∨ password ≠ apiPassword then
    .error ⟨401, "Basic"⟩
  else
    .ok username

/-- One FastAPI route of `src/main.py`: method, path, whether its handler
mutates the store, and whether any parameter of its handler declares the
`Depends(get_current_user)` security dependency — transcribed from the
eight handler signatures, none of which does. -/
structure RouteInfo where
  method : String
  path : String
  mutating : Bool
  hasAuthDependency : Bool
deriving DecidableEq

/-- The route table of the app, in source order. -/
def appRoutes : List RouteInfo :=
  [⟨"POST", "/rsvp", true, false⟩,
   ⟨"GET", "/rsvp", false, false⟩,
   ⟨"POST", "/gifts", true, false⟩,
   ⟨"PATCH", "/gifts/purchased", true, false⟩,
   ⟨"GET", "/gifts", false, false⟩,
   ⟨"GET", "/gifts/\x7bid\x7d", false, false⟩,
   ⟨"POST", "/testimonials", true, false⟩,
   ⟨"GET", "/testimonials", false, false⟩]

/-! Helper lemmas shared by the claim theorems. -/

theorem pyIndex_natCast (L a : Nat) : pyIndex L (a : Int) = min a L := by
  simp [pyIndex]

/-- Python slicing at nonnegative endpoints `[a : a + n]` is drop-then-take. -/
theorem pySlice_natCast {α : Type} (l : List α) (a n : Nat) :
    pySlice l (a : Int) ((a : Int) + (n : Int)) = (l.drop a).take n := by
  have h2 : pyIndex l.length ((a : Int) + (n : Int)) = min (a + n) l.length := by
    have hc : ((a : Int) + (n : Int)) = ((a + n : Nat) : Int) := by push_cast; ring
    rw [hc, pyIndex_natCast]
  unfold pySlice
  rw [pyIndex_natCast, h2]
  rcases le_or_lt a l.length with h | h
  · rw [min_eq_left h]
    rcases le_or_lt (a + n) l.length with h3 | h3
    · rw [min_eq_left h3]
      congr 1
      omega
    · rw [min_eq_right (le_of_lt h3)]
      have hlen : (l.drop a).length = l.length - a := List.length_drop _ _
      rw [List.take_of_length_le (by omega), List.take_of_length_le (by omega)]
  · rw [min_eq_right (le_of_lt h), min_eq_right (by omega)]
    rw [List.drop_eq_nil_of_le (by omega), List.drop_eq_nil_of_le (le_of_lt h)]
    simp

theorem mem_of_mem_pySlice {α : Type} {x : α} {l : List α} {i j : Int}
    (h : x ∈ pySlice l i j) : x ∈ l :=
  List.mem_of_mem_drop (List.mem_of_mem_take h)

theorem findFirstIdx_eq_none_iff {α : Type} {p : α → Bool} {l : List α} :
    findFirstIdx p l = none ↔ ∀ x ∈ l, p x = false := by
  induction l with
  | nil => simp [findFirstIdx]
  | cons a t ih =>
      cases hpa : p a with
      | true => simp [findFirstIdx, hpa]
      | false => simp [findFirstIdx, hpa, ih]

theorem findFirstIdx_eq_some_of {α : Type} {p : α → Bool} {l : List α} {i : Nat} {x : α}
    (hx : l[i]? = some x) (hp : p x = true)
    (hbefore : ∀ j, j < i → ∀ y, l[j]? = some y → p y = false) :
    findFirstIdx p l = some i := by
  induction l generalizing i with
  | nil => simp at hx
  | cons a t ih =>
      cases i with
      | zero =>
          simp only [List.getElem?_cons_zero, Option.some.injEq] at hx
          subst hx
          simp [findFirstIdx, hp]
      | succ i' =>
          have ha : p a = false := hbefore 0 (Nat.succ_pos _) a (by simp)
          have step : findFirstIdx p (a :: t) = (findFirstIdx p t).map (· + 1) := by
            simp [findFirstIdx, ha]
          rw [step, ih (by simpa using hx)
            (fun j hj y hy => hbefore (j + 1) (by omega) y (by simpa using hy))]
          rfl

theorem length_setCellInRow (r : Row) (c : Nat) (v : String) :
    (setCellInRow r c v).length = max r.length (c + 1) := by
  unfold setCellInRow
  split
  · simp
    omega
  · simp
    omega

theorem cellOfRow_setCellInRow (r : Row) (c : Nat) (v : String) (k : Nat) :
    cellOfRow (setCellInRow r c v) k = if k = c then v else cellOfRow r k := by
  unfold setCellInRow cellOfRow
  rw [List.getD_eq_getElem?_getD, List.getD_eq_getElem?_getD]
  split
  case isTrue h =>
    rw [List.getElem?_set]
    by_cases hk : k = c
    · subst hk
      simp [h]
    · rw [if_neg (fun hc : c = k => hk hc.symm), if_neg hk]
  case isFalse h =>
    have hlen1 : (r ++ List.replicate (c - r.length) "").length = c := by
      simp only [List.length_append, List.length_replicate]
      omega
    rw [List.getElem?_append, hlen1]
    by_cases hk : k = c
    · subst hk
      rw [if_neg (lt_irrefl k), Nat.sub_self]
      simp
    · rw [if_neg hk]
      by_cases hklt : k < c
      · rw [if_pos hklt, List.getElem?_append]
        by_cases hkL : k < r.length
        · rw [if_pos hkL]
        · rw [if_neg hkL, List.getElem?_replicate, if_pos (by omega),
            List.getElem?_eq_none (by omega)]
          rfl
      · rw [if_neg hklt, List.getElem?_eq_none (by simp; omega),
          List.getElem?_eq_none (by omega)]

theorem getKey_zip (headers row : Row) (k : Nat) (hk : k < headers.length)
    (hlen : headers.length ≤ row.length)
    (hfirst : ∀ j, j < k → headers.getD j "" ≠ headers.getD k "") :
    getKey (headers.zip row) (headers.getD k "") = some (row.getD k "") := by
  induction headers generalizing row k with
  | nil => simp at hk
  | cons h hs ih =>
      cases row with
      | nil => simp at hlen
      | cons r rs =>
          cases k with
          | zero =>
              simp only [List.getD_cons_zero]
              unfold getKey
              rw [List.zip_cons_cons, List.find?_cons_of_pos _ (by simp)]
              rfl
          | succ k' =>
              have hne : h ≠ hs.getD k' "" := by
                have := hfirst 0 (Nat.succ_pos _)
                simpa using this
              simp only [List.getD_cons_succ]
              unfold getKey
              rw [List.zip_cons_cons,
                List.find?_cons_of_neg _ (by simpa using hne)]
              have := ih rs k' (by simpa using hk) (by simpa using hlen)
                (fun j hj => by
                  have := hfirst (j + 1) (by omega)
                  simpa using this)
              simpa [getKey] using this

theorem getField_eq_getKey (r : Rec) (k : String) :
    getField r k = (getKey r k).getD "" := rfl

/-- The record built from the gifts header row, with its six fields. -/
theorem recOfRow_giftHeaders (r : Row) :
    recOfRow giftHeaders r =
      [("id", cellOfRow r 0), ("name", cellOfRow r 1), ("image_url", cellOfRow r 2),
       ("available", cellOfRow r 3), ("purchased", cellOfRow r 4),
       ("updated_at", cellOfRow r 5)] := by
  simp [recOfRow, giftHeaders, List.range_succ]

theorem getField_recOfRow_gift_id (r : Row) :
    getField (recOfRow giftHeaders r) "id" = cellOfRow r 0 := by
  rw [recOfRow_giftHeaders]
  rfl

theorem getField_recOfRow_gift_name (r : Row) :
    getField (recOfRow giftHeaders r) "name" = cellOfRow r 1 := by
  rw [recOfRow_giftHeaders]
  rfl

theorem getField_recOfRow_gift_image (r : Row) :
    getField (recOfRow giftHeaders r) "image_url" = cellOfRow r 2 := by
  rw [recOfRow_giftHeaders]
  rfl

theorem getField_recOfRow_gift_available (r : Row) :
    getField (recOfRow giftHeaders r) "available" = cellOfRow r 3 := by
  rw [recOfRow_giftHeaders]
  rfl

/-! Claim theorems. -/

/-- C1: for every list of gift records and every `page ≥ 1` and page size
`limit`, `list_available_gifts` returns exactly the records whose available
cell literally equals `"TRUE"`, sorted ascending by name, sliced as the
1-indexed page of size `limit` (drop `(page-1)*limit`, take `limit`), each
projected to id/name/image_url; a page beyond the end of the data returns
the empty list, never an error; and the output is name-sorted. -/
theorem C1_list_available_pagination (records : List Rec) (page limit : Nat)
    (hp : 1 ≤ page) :
    list_available_records records (page : Int) (limit : Int)
        = (((availableSorted records).drop ((page - 1) * limit)).take limit).map projGift
      ∧ (∀ g ∈ list_available_records records (page : Int) (limit : Int),
          ∃ r ∈ records, getField r "available" = "TRUE" ∧ g = projGift r)
      ∧ ((availableSorted records).length ≤ (page - 1) * limit →
          list_available_records records (page : Int) (limit : Int) = [])
      ∧ List.Pairwise (fun a b => a.name ≤ b.name)
          (list_available_records records (page : Int) (limit : Int)) := by
  have h1 : ((page : Int) - 1) = (((page - 1 : Nat)) : Int) := by omega
  have hmain : list_available_records records (page : Int) (limit : Int)
      = (((availableSorted records).drop ((page - 1) * limit)).take limit).map projGift := by
    unfold list_available_records
    rw [h1, ← Nat.cast_mul, pySlice_natCast]
  refine ⟨hmain, ?_, ?_, ?_⟩
  · intro g hg
    rw [hmain] at hg
    obtain ⟨rec, hrec, hproj⟩ := List.mem_map.mp hg
    have hmem : rec ∈ availableSorted records :=
      List.mem_of_mem_drop (List.mem_of_mem_take hrec)
    have hfil : rec ∈ (records.filter (fun r => getField r "available" == "TRUE")) :=
      List.mem_mergeSort.mp hmem
    obtain ⟨hin, htrue⟩ := List.mem_filter.mp hfil
    exact ⟨rec, hin, beq_iff_eq.mp htrue, hproj.symm⟩
  · intro hlen
    rw [hmain, List.drop_eq_nil_of_le hlen]
    simp
  · have htrans : ∀ a b c : Rec, nameLe a b = true → nameLe b c = true → nameLe a c = true := by
      intro a b c hab hbc
      simp only [nameLe, decide_eq_true_eq] at *
      exact le_trans hab hbc
    have htotal : ∀ a b : Rec, (nameLe a b || nameLe b a) = true := by
      intro a b
      simp only [nameLe, Bool.or_eq_true, decide_eq_true_eq]
      exact le_total _ _
    have hps : List.Pairwise (fun a b => nameLe a b = true) (availableSorted records) :=
      List.sorted_mergeSort htrans htotal _
    have hslice : List.Pairwise (fun a b => nameLe a b = true)
        (((availableSorted records).drop ((page - 1) * limit)).take limit) :=
      List.Pairwise.sublist
        ((List.take_sublist _ _).trans (List.drop_sublist _ _)) hps
    rw [hmain, List.pairwise_map]
    exact hslice.imp (fun hab => by
      simpa only [nameLe, projGift, decide_eq_true_eq] using hab)

/-- C1 witness: one available gift, page 1 of size 10 returns it. -/
theorem C1_list_available_pagination_witness :
    1 ≤ (1 : Nat) ∧
      list_available_records
          [[("id", "7"), ("name", "Blender"), ("image_url", "u"), ("available", "TRUE")]]
          ((1 : Nat) : Int) ((10 : Nat) : Int)
        = [⟨"7", "Blender", "u"⟩] := by
  refine ⟨by decide, ?_⟩
  rw [(C1_list_available_pagination
    [[("id", "7"), ("name", "Blender"), ("image_url", "u"), ("available", "TRUE")]]
    1 10 (by decide)).1]
  simp [availableSorted, getField, projGift]

/-- C8: for every headers list and every row at least as long,
`row_to_dict` returns the positional zip sending the i-th header to the
i-th cell; for a shorter row it is undefined (the modelled `IndexError`)
rather than an explicit malformed-row error. -/
theorem C8_row_to_dict (headers row : Row) :
    (headers.length ≤ row.length →
       ∃ d, row_to_dict headers row = some d ∧ d.length = headers.length ∧
         ∀ k, k < headers.length →
           d.getD k ("", "") = (headers.getD k "", row.getD k "")) ∧
    (row.length < headers.length → row_to_dict headers row = none) := by
  constructor
  · intro hle
    refine ⟨headers.zip row, ?_, ?_, ?_⟩
    · unfold row_to_dict
      rw [if_pos hle]
    · rw [List.length_zip]
      omega
    · intro k hk
      have hkz : k < (headers.zip row).length := by
        rw [List.length_zip]
        omega
      rw [List.getD_eq_getElem?_getD, List.getElem?_eq_getElem hkz,
        Option.getD_some, List.getElem_zip,
        List.getD_eq_getElem?_getD, List.getElem?_eq_getElem hk, Option.getD_some,
        List.getD_eq_getElem?_getD, List.getElem?_eq_getElem (by omega : k < row.length),
        Option.getD_some]
  · intro hlt
    unfold row_to_dict
    rw [if_neg (by omega)]

/-- C8 witness: a two-header row decodes positionally; a short row is
undefined. -/
theorem C8_row_to_dict_witness :
    ((["a", "b"] : Row).length ≤ (["x", "y", "z"] : Row).length ∧
      ∃ d, row_to_dict ["a", "b"] ["x", "y", "z"] = some d ∧
        d.length = (["a", "b"] : Row).length ∧
        ∀ k, k < (["a", "b"] : Row).length →
          d.getD k ("", "") = ((["a", "b"] : Row).getD k "", (["x", "y", "z"] : Row).getD k "")) ∧
    row_to_dict ["a", "b"] ["x"] = none := by
  constructor
  · exact ⟨by decide, (C8_row_to_dict ["a", "b"] ["x", "y", "z"]).1 (by decide)⟩
  · exact (C8_row_to_dict ["a", "b"] ["x"]).2 (by decide)

/-- Python slicing with two negative endpoints counts from the end of the
list: on a list long enough to absorb the start offset, `l[s:t]` drops all
but the last `(-s).toNat` elements and takes `(t - s).toNat` of them. -/
theorem pySlice_neg {α : Type} (l : List α) (s t : Int) (hs : s < 0) (ht : t < 0)
    (hst : s ≤ t) (hlen : (-s).toNat ≤ l.length) :
    pySlice l s t = (l.drop (l.length - (-s).toNat)).take (t - s).toNat := by
  unfold pySlice pyIndex
  rw [if_pos hs, if_pos ht]
  have h1 : ((l.length : Int) + s).toNat = l.length - (-s).toNat := by omega
  have h2 : ((l.length : Int) + t).toNat = l.length - (-t).toNat := by omega
  rw [h1, h2]
  congr 1
  omega

/-- The page slice of any paginated listing at `page < 0` and `0 < limit`:
both slice endpoints are negative, and on a list of at least
`(1 - page) * limit` elements the result is the `limit`-sized window taken
from the end of the list starting `(1 - page) * limit` elements before its
end — never empty, never an error. -/
theorem pySlice_negPage {α : Type} (l : List α) (page limit : Int)
    (hpage : page < 0) (hlimit : 0 < limit)
    (hlen : ((1 - page) * limit).toNat ≤ l.length) :
    pySlice l ((page - 1) * limit) ((page - 1) * limit + limit)
        = (l.drop (l.length - ((1 - page) * limit).toNat)).take limit.toNat ∧
      pySlice l ((page - 1) * limit) ((page - 1) * limit + limit) ≠ [] := by
  have hs : (page - 1) * limit < 0 := mul_neg_of_neg_of_pos (by omega) hlimit
  have htq : (page - 1) * limit + limit = page * limit := by ring
  have ht : (page - 1) * limit + limit < 0 := by
    rw [htq]
    exact mul_neg_of_neg_of_pos hpage hlimit
  have hneg : -((page - 1) * limit) = (1 - page) * limit := by ring
  have hts : (page - 1) * limit + limit - (page - 1) * limit = limit := by ring
  have hpos : 0 < (1 - page) * limit := mul_pos (by omega) hlimit
  have hmain : pySlice l ((page - 1) * limit) ((page - 1) * limit + limit)
      = (l.drop (l.length - ((1 - page) * limit).toNat)).take limit.toNat := by
    rw [pySlice_neg l _ _ hs ht (by omega) (by rw [hneg]; exact hlen), hneg, hts]
  refine ⟨hmain, ?_⟩
  rw [hmain]
  apply List.ne_nil_of_length_pos
  rw [List.length_take, List.length_drop]
  omega

/-- C10: a non-positive page is not rejected by either paginated listing
(available gifts or testimonials).  `page = 0, limit = 10` yields the slice
`[-10:0]`, which is empty (in particular for ≥ 10 records).  Any `page < 0`
with a positive `limit` produces two negative slice bounds, so on an
underlying list of at least `(1 - page) * limit` records — for the gift
listing the underlying list is the name-sorted available set — the result
is the `limit`-sized window taken from the end of the list starting
`(1 - page) * limit` records before its end (for `page = -1, limit = 10`:
the 20th-from-last through 11th-from-last records), not an empty list and
not an error. -/
theorem C10_nonpositive_page :
    (∀ records : List Rec, 10 ≤ records.length →
        list_testimonials_records records 0 10 = []) ∧
    (∀ records : List Rec, 10 ≤ (availableSorted records).length →
        list_available_records records 0 10 = []) ∧
    (∀ (records : List Rec) (page limit : Int), page < 0 → 0 < limit →
        (page - 1) * limit < 0 ∧ (page - 1) * limit + limit < 0 ∧
        (((1 - page) * limit).toNat ≤ records.length →
          list_testimonials_records records page limit
              = (records.drop (records.length - ((1 - page) * limit).toNat)).take limit.toNat ∧
            list_testimonials_records records page limit ≠ [])) ∧
    (∀ (records : List Rec) (page limit : Int), page < 0 → 0 < limit →
        ((1 - page) * limit).toNat ≤ (availableSorted records).length →
          list_available_records records page limit
              = (((availableSorted records).drop
                  ((availableSorted records).length - ((1 - page) * limit).toNat)).take limit.toNat).map projGift ∧
            list_available_records records page limit ≠ []) := by
  have hzero : ∀ (l : List Rec), pySlice l (((0 : Int) - 1) * 10) (((0 : Int) - 1) * 10 + 10) = [] := by
    intro l
    unfold pySlice pyIndex
    norm_num
  refine ⟨?_, ?_, ?_, ?_⟩
  · intro records _
    unfold list_testimonials_records
    exact hzero records
  · intro records _
    unfold list_available_records
    rw [hzero]
    rfl
  · intro records page limit hpage hlimit
    refine ⟨mul_neg_of_neg_of_pos (by omega) hlimit, ?_, ?_⟩
    · rw [show (page - 1) * limit + limit = page * limit from by ring]
      exact mul_neg_of_neg_of_pos hpage hlimit
    · intro hlen
      unfold list_testimonials_records
      exact pySlice_negPage records page limit hpage hlimit hlen
  · intro records page limit hpage hlimit hlen
    obtain ⟨he, hne⟩ := pySlice_negPage (availableSorted records) page limit hpage hlimit hlen
    unfold list_available_records
    refine ⟨by rw [he], ?_⟩
    intro hcontra
    exact hne (List.map_eq_nil_iff.mp hcontra)

/-- C10 witness: the page-0 parts and, at `page = -1, limit = 10` on
20-record lists, the from-the-end non-empty results of both listings. -/
theorem C10_nonpositive_page_witness :
    (10 ≤ (List.replicate 10 ([] : Rec)).length ∧
        list_testimonials_records (List.replicate 10 ([] : Rec)) 0 10 = []) ∧
    (10 ≤ (availableSorted (List.replicate 10 [("available", "TRUE")])).length ∧
        list_available_records (List.replicate 10 [("available", "TRUE")]) 0 10 = []) ∧
    (((1 - (-1)) * 10 : Int).toNat ≤ (List.replicate 20 ([] : Rec)).length ∧
        list_testimonials_records (List.replicate 20 ([] : Rec)) (-1) 10 ≠ []) ∧
    (((1 - (-1)) * 10 : Int).toNat ≤ (availableSorted (List.replicate 20 [("available", "TRUE")])).length ∧
        list_available_records (List.replicate 20 [("available", "TRUE")]) (-1) 10 ≠ []) := by
  have h10 : 10 ≤ (availableSorted (List.replicate 10 [("available", "TRUE")])).length := by
    unfold availableSorted
    rw [List.length_mergeSort]
    decide
  have h20 : ((1 - (-1)) * 10 : Int).toNat
      ≤ (availableSorted (List.replicate 20 [("available", "TRUE")])).length := by
    unfold availableSorted
    rw [List.length_mergeSort]
    decide
  refine ⟨⟨by decide, C10_nonpositive_page.1 _ (by decide)⟩,
    ⟨h10, C10_nonpositive_page.2.1 _ h10⟩, ⟨by decide, ?_⟩, ⟨h20, ?_⟩⟩
  · exact ((C10_nonpositive_page.2.2.1 (List.replicate 20 ([] : Rec)) (-1) 10
      (by decide) (by decide)).2.2 (by decide)).2
  · exact ((C10_nonpositive_page.2.2.2 (List.replicate 20 [("available", "TRUE")]) (-1) 10
      (by decide) (by decide)) h20).2

/-- C3: `mark_purchased` errors (the 404) iff no row — the header row
included — has a column-1 cell equal to the identifier, by exact
case-sensitive string match; when a match exists the first matching row is
selected and only its 0-based cells 3, 4, 5 (sheet columns 4, 5, 6) change:
available to the stored Python `False`, purchased to the buyer, updated_at
to now.  Every other row and every other cell of the matched row keeps its
value. -/
theorem C3_mark_purchased (ws : Ws) (idStr buyer now : String) :
    (update_gift_purchased ws idStr buyer now = .error () ↔
       ∀ r ∈ ws.rows, firstCell r ≠ idStr) ∧
    (∀ i, i < ws.rows.length →
       firstCell (ws.rows.getD i []) = idStr →
       (∀ j, j < i → firstCell (ws.rows.getD j []) ≠ idStr) →
       ∃ ws', update_gift_purchased ws idStr buyer now = .ok ws' ∧
         ws'.rowCount = ws.rowCount ∧
         ws'.rows.length = ws.rows.length ∧
         (∀ j, j ≠ i → ws'.rows.getD j [] = ws.rows.getD j []) ∧
         cellVal ws' i 3 = "FALSE" ∧ cellVal ws' i 4 = buyer ∧ cellVal ws' i 5 = now ∧
         (∀ c, c ≠ 3 → c ≠ 4 → c ≠ 5 → cellVal ws' i c = cellVal ws i c)) := by
  constructor
  · cases hfind : findRowById ws idStr with
    | none =>
        constructor
        · intro _ r hr
          have := (findFirstIdx_eq_none_iff.mp hfind) r hr
          exact beq_eq_false_iff_ne.mp this
        · intro _
          unfold update_gift_purchased
          rw [hfind]
    | some i =>
        constructor
        · intro habs
          unfold update_gift_purchased at habs
          rw [hfind] at habs
          simp at habs
        · intro hall
          have : findRowById ws idStr = none :=
            findFirstIdx_eq_none_iff.mpr
              (fun r hr => beq_eq_false_iff_ne.mpr (hall r hr))
          rw [hfind] at this
          cases this
  · intro i hi hmatch hbefore
    have hx : ws.rows[i]? = some ws.rows[i] := List.getElem?_eq_getElem hi
    have hgd : ws.rows.getD i [] = ws.rows[i] := by
      rw [List.getD_eq_getElem?_getD, hx]
      rfl
    have hfind : findRowById ws idStr = some i := by
      apply findFirstIdx_eq_some_of hx
      · rw [hgd] at hmatch
        exact beq_iff_eq.mpr hmatch
      · intro j hj y hy
        have hjlen : j < ws.rows.length := lt_trans hj hi
        have hyj : ws.rows[j] = y := by
          rw [List.getElem?_eq_getElem hjlen] at hy
          exact Option.some.inj hy
        have hgj : ws.rows.getD j [] = ws.rows[j] := by
          rw [List.getD_eq_getElem?_getD, List.getElem?_eq_getElem hjlen]
          rfl
        apply beq_eq_false_iff_ne.mpr
        rw [← hyj, ← hgj]
        exact hbefore j hj
    refine ⟨{ ws with rows := ws.rows.set i (purchasedRow (ws.rows.getD i []) buyer now) },
      ?_, rfl, List.length_set _ _ _, ?_, ?_, ?_, ?_, ?_⟩
    · unfold update_gift_purchased
      rw [hfind]
    · intro j hj
      show (ws.rows.set i _).getD j [] = ws.rows.getD j []
      rw [List.getD_eq_getElem?_getD, List.getElem?_set, if_neg (fun h => hj h.symm)]
      exact (List.getD_eq_getElem?_getD _ _ _).symm
    · show cellOfRow ((ws.rows.set i _).getD i []) 3 = "FALSE"
      rw [List.getD_eq_getElem?_getD, List.getElem?_set, if_pos rfl, if_pos hi]
      simp [purchasedRow, cellOfRow_setCellInRow]
    · show cellOfRow ((ws.rows.set i _).getD i []) 4 = buyer
      rw [List.getD_eq_getElem?_getD, List.getElem?_set, if_pos rfl, if_pos hi]
      simp [purchasedRow, cellOfRow_setCellInRow]
    · show cellOfRow ((ws.rows.set i _).getD i []) 5 = now
      rw [List.getD_eq_getElem?_getD, List.getElem?_set, if_pos rfl, if_pos hi]
      simp [purchasedRow, cellOfRow_setCellInRow]
    · intro c h3 h4 h5
      show cellOfRow ((ws.rows.set i _).getD i []) c = cellVal ws i c
      rw [List.getD_eq_getElem?_getD, List.getElem?_set, if_pos rfl, if_pos hi]
      simp only [purchasedRow, Option.getD_some, cellOfRow_setCellInRow, if_neg h3, if_neg h4, if_neg h5]
      rfl

/-- C3 witness: on a sheet with the header row and one gift row, the gift's
id matches row 1 (0-based), the update succeeds and rewrites cells 3, 4, 5
of that row only. -/
theorem C3_mark_purchased_witness :
    ∃ ws', update_gift_purchased
        ⟨100, [giftHeaders, ["u1", "Lamp", "url1", "TRUE", "", "t0"]]⟩
        "u1" "Sam" "t1" = .ok ws' ∧
      cellVal ws' 1 3 = "FALSE" ∧ cellVal ws' 1 4 = "Sam" ∧ cellVal ws' 1 5 = "t1" ∧
      cellVal ws' 1 0 = "u1" := by
  obtain ⟨ws', heq, _, _, _, h3, h4, h5, hframe⟩ :=
    (C3_mark_purchased ⟨100, [giftHeaders, ["u1", "Lamp", "url1", "TRUE", "", "t0"]]⟩
      "u1" "Sam" "t1").2 1 (by decide)
      (by decide)
      (by intro j hj; interval_cases j; decide)
  exact ⟨ws', heq, h3, h4, h5, by rw [hframe 0 (by decide) (by decide) (by decide)]; decide⟩

/-- C5: registering a batch of gifts appends exactly one row per item in a
single batch call after the header check; row `k` carries the `k`-th freshly
generated identifier, the item's name and image url, available stored as
`"TRUE"`, purchased stored empty, updated_at now; the generated ids of the
appended rows are pairwise distinct (freshness of `uuid4` is modelled by a
distinct id supply); and the reported count is the length of the input
batch. -/
theorem C5_register_gifts (ws : Ws) (gifts : List GiftRequest) (ids : List String)
    (now : String) (hlen : ids.length = gifts.length) (hnodup : ids.Nodup) :
    (register_gifts ws gifts ids now).2 = gifts.length ∧
    ∃ newRows : List Row,
      (register_gifts ws gifts ids now).1.rows
          = (ensureHeader ws giftHeaders).rows ++ newRows ∧
      newRows.length = gifts.length ∧
      (∀ k, k < gifts.length →
        newRows.getD k [] =
          [ids.getD k "", (gifts.getD k ⟨"", ""⟩).name, (gifts.getD k ⟨"", ""⟩).image_url,
           "TRUE", "", now]) ∧
      (newRows.map firstCell).Nodup := by
  refine ⟨rfl, (gifts.zip ids).map
      (fun gi : GiftRequest × String => [gi.2, gi.1.name, gi.1.image_url, "TRUE", "", now]),
      ?_, ?_, ?_, ?_⟩
  · rfl
  · rw [List.length_map, List.length_zip]
    omega
  · intro k hk
    have hkz : k < (gifts.zip ids).length := by
      rw [List.length_zip]
      omega
    have hkg : k < gifts.length := hk
    have hki : k < ids.length := by omega
    have hg : gifts.getD k ⟨"", ""⟩ = gifts[k] := by
      rw [List.getD_eq_getElem?_getD, List.getElem?_eq_getElem hkg]
      rfl
    have hid2 : ids.getD k "" = ids[k] := by
      rw [List.getD_eq_getElem?_getD, List.getElem?_eq_getElem hki]
      rfl
    rw [List.getD_eq_getElem?_getD, List.getElem?_map, List.getElem?_eq_getElem hkz,
      Option.map_some', Option.getD_some, List.getElem_zip, hg, hid2]
  · have hmm : ((gifts.zip ids).map
        (fun gi : GiftRequest × String => [gi.2, gi.1.name, gi.1.image_url, "TRUE", "", now])).map firstCell
        = (gifts.zip ids).map Prod.snd := by
      rw [List.map_map]
      exact List.map_congr_left (fun a _ => rfl)
    rw [hmm, List.map_snd_zip _ _ (by omega)]
    exact hnodup

/-- C5 witness: a two-item batch with two distinct fresh ids. -/
theorem C5_register_gifts_witness :
    ((["id1", "id2"] : List String).length = ([⟨"Blender", "u1"⟩, ⟨"Toaster", "u2"⟩] : List GiftRequest).length ∧
        (["id1", "id2"] : List String).Nodup) ∧
      (register_gifts ⟨100, []⟩ [⟨"Blender", "u1"⟩, ⟨"Toaster", "u2"⟩] ["id1", "id2"] "t").2 = 2 := by
  refine ⟨⟨by decide, by decide⟩, ?_⟩
  have h := (C5_register_gifts ⟨100, []⟩ [⟨"Blender", "u1"⟩, ⟨"Toaster", "u2"⟩]
    ["id1", "id2"] "t" (by decide) (by decide)).1
  exact h

/-- `ensureHeader` leaves row 1 equal to the canonical header row whenever
row 1 was blank or already canonical. -/
theorem ensureHeader_rowValues (ws : Ws) (headers : Row) (_hne : headers ≠ [])
    (h : rowValues ws 1 = [] ∨ rowValues ws 1 = headers) :
    rowValues (ensureHeader ws headers) 1 = headers := by
  unfold ensureHeader
  split
  case isTrue _ =>
    show rowValues ⟨ws.rowCount, (headers ++ (ws.rows.headD []).drop headers.length) :: ws.rows.tail⟩ 1 = headers
    have hhd : ws.rows.headD [] = rowValues ws 1 := by
      unfold rowValues
      cases ws.rows <;> rfl
    rcases h with h | h
    · rw [show rowValues ⟨ws.rowCount, (headers ++ (ws.rows.headD []).drop headers.length) :: ws.rows.tail⟩ 1 = headers ++ (ws.rows.headD []).drop headers.length from rfl, hhd, h]
      simp
    · rw [show rowValues ⟨ws.rowCount, (headers ++ (ws.rows.headD []).drop headers.length) :: ws.rows.tail⟩ 1 = headers ++ (ws.rows.headD []).drop headers.length from rfl, hhd, h]
      simp
  case isFalse hcond =>
    rcases h with h | h
    · exact absurd (Or.inr h) hcond
    · exact h

/-- A worksheet whose row 1 is non-blank has rows. -/
theorem rows_ne_nil_of_rowValues (ws : Ws) (h : rowValues ws 1 ≠ []) :
    ws.rows ≠ [] := by
  intro hnil
  apply h
  unfold rowValues
  rw [hnil]
  rfl

/-- Appending rows does not touch row 1 of a non-empty sheet. -/
theorem rowValues_appendRows (ws : Ws) (rs : List Row) (h : ws.rows ≠ []) :
    rowValues (appendRows ws rs) 1 = rowValues ws 1 := by
  unfold rowValues appendRows
  simp only
  rw [List.getD_eq_getElem?_getD, List.getD_eq_getElem?_getD, List.getElem?_append,
    if_pos (by simpa using List.length_pos.mpr h)]

/-- Appending one row does not touch row 1 of a non-empty sheet. -/
theorem rowValues_appendRow (ws : Ws) (r : Row) (h : ws.rows ≠ []) :
    rowValues (appendRow ws r) 1 = rowValues ws 1 :=
  rowValues_appendRows ws [r] h

/-- C6: each register operation (RSVP, gift, testimonial) preserves the
header-row invariant: when row 1 is blank it writes the canonical header row
before appending the data row, and when row 1 already is the canonical
header it is kept, so after the operation row 1 equals the resource's
canonical header list. -/
theorem C6_header_invariant (ws1 ws2 ws3 : Ws) (req : RSVPRequest)
    (dumps : List Companion → String) (now : String) (gifts : List GiftRequest)
    (ids : List String) (full_name message : String) :
    ((rowValues ws1 1 = [] ∨ rowValues ws1 1 = rsvpHeaders) →
        rowValues (register_rsvp_ws ws1 req dumps now) 1 = rsvpHeaders) ∧
    ((rowValues ws2 1 = [] ∨ rowValues ws2 1 = giftHeaders) →
        rowValues (register_gifts ws2 gifts ids now).1 1 = giftHeaders) ∧
    ((rowValues ws3 1 = [] ∨ rowValues ws3 1 = testimonialHeaders) →
        rowValues (register_testimonial_ws ws3 full_name message now) 1 = testimonialHeaders) := by
  refine ⟨?_, ?_, ?_⟩
  · intro h
    have h1 := ensureHeader_rowValues ws1 rsvpHeaders (by simp [rsvpHeaders]) h
    unfold register_rsvp_ws
    rw [rowValues_appendRow _ _ (rows_ne_nil_of_rowValues _ (by rw [h1]; simp [rsvpHeaders]))]
    exact h1
  · intro h
    have h1 := ensureHeader_rowValues ws2 giftHeaders (by simp [giftHeaders]) h
    unfold register_gifts
    rw [rowValues_appendRows _ _ (rows_ne_nil_of_rowValues _ (by rw [h1]; simp [giftHeaders]))]
    exact h1
  · intro h
    have h1 := ensureHeader_rowValues ws3 testimonialHeaders (by simp [testimonialHeaders]) h
    unfold register_testimonial_ws
    rw [rowValues_appendRow _ _ (rows_ne_nil_of_rowValues _ (by rw [h1]; simp [testimonialHeaders]))]
    exact h1

/-- C6 witness: registering into three blank worksheets writes the three
canonical header rows. -/
theorem C6_header_invariant_witness :
    rowValues (register_rsvp_ws ⟨100, []⟩ ⟨"Ana", RSVPStatus.confirmed, 7, none⟩
        (fun _ => "[]") "t") 1 = rsvpHeaders ∧
    rowValues (register_gifts ⟨100, []⟩ [] [] "t").1 1 = giftHeaders ∧
    rowValues (register_testimonial_ws ⟨100, []⟩ "Ana" "hi" "t") 1 = testimonialHeaders := by
  obtain ⟨h1, h2, h3⟩ := C6_header_invariant ⟨100, []⟩ ⟨100, []⟩ ⟨100, []⟩
    ⟨"Ana", RSVPStatus.confirmed, 7, none⟩ (fun _ => "[]") "t" [] [] "Ana" "hi"
  exact ⟨h1 (Or.inl rfl), h2 (Or.inl rfl), h3 (Or.inl rfl)⟩

/-- C2 counterexample: the claim fails as stated at companions `= some []`.
The submission `("Ana", confirmed, 5599, companions=[])` is valid, but after
registering it on a blank sheet, no record of the listing filtered by the
same status carries `companions = []` back: the empty list was serialised to
the empty cell (Python `[]` is falsy) and reads back as `None`. -/
theorem C2_rsvp_roundtrip_counterexample :
    ¬ ∃ r ∈ list_rsvps
        (register_rsvp [] ⟨"Ana", RSVPStatus.confirmed, 5599, some []⟩ "t0")
        RSVPStatus.confirmed,
      r.full_name = "Ana" ∧ r.phone = 5599 ∧ r.companions = some [] := by
  decide

/-- C2 (amended): for every valid RSVP submission whose companions are
absent or a non-empty list, registering it and then listing by the same
status yields a record matching the submission with the companions
round-tripped exactly.  (The original claim, quantifying over every
optional companions list, fails at the empty list — see the
counterexample — which instead reads back as absent, as C9 states.) -/
theorem C2_rsvp_roundtrip (sheet : List RSVPRow) (req : RSVPRequest) (now : String)
    (h : req.companions ≠ some []) :
    ∃ r ∈ list_rsvps (register_rsvp sheet req now) req.status,
      r.full_name = req.full_name ∧ r.status = req.status ∧ r.phone = req.phone ∧
      r.companions = req.companions ∧ r.created_at = now := by
  have hcomp : (if companionsTruthy req.companions then req.companions else none)
      = req.companions := by
    match hc : req.companions with
    | none => simp [companionsTruthy]
    | some [] => exact absurd hc h
    | some (a :: t) => simp [companionsTruthy]
  refine ⟨⟨⟨req.full_name, req.status, req.phone, req.companions⟩, now⟩, ?_, rfl, rfl, rfl, rfl, rfl⟩
  unfold list_rsvps register_rsvp
  rw [hcomp]
  apply List.mem_map.mpr
  refine ⟨⟨req.full_name, req.status, req.phone, req.companions, now⟩, ?_, rfl⟩
  apply List.mem_filter.mpr
  exact ⟨List.mem_append_right _ (by simp), by simp⟩

/-- C2 witness: a submission with one companion round-trips. -/
theorem C2_rsvp_roundtrip_witness :
    (some [⟨"Kid", PersonType.child⟩] : Option (List Companion)) ≠ some [] ∧
    ∃ r ∈ list_rsvps
        (register_rsvp [] ⟨"Bob", RSVPStatus.declined, 7, some [⟨"Kid", PersonType.child⟩]⟩ "t1")
        RSVPStatus.declined,
      r.full_name = "Bob" ∧ r.status = RSVPStatus.declined ∧ r.phone = 7 ∧
      r.companions = some [⟨"Kid", PersonType.child⟩] ∧ r.created_at = "t1" :=
  ⟨by decide, C2_rsvp_roundtrip []
    ⟨"Bob", RSVPStatus.declined, 7, some [⟨"Kid", PersonType.child⟩]⟩ "t1" (by decide)⟩

/-- C9: a submission with companions `= []` stores the empty/null cell
(the empty list is falsy), so the appended row carries `none`, and the
subsequent listing by the same status returns the record with companions
absent rather than the empty list. -/
theorem C9_empty_companions_not_roundtripped (sheet : List RSVPRow) (name : String)
    (st : RSVPStatus) (phone : Int) (now : String) :
    (register_rsvp sheet ⟨name, st, phone, some []⟩ now).getLast?
        = some ⟨name, st, phone, none, now⟩ ∧
    ∃ r ∈ list_rsvps (register_rsvp sheet ⟨name, st, phone, some []⟩ now) st,
      r.full_name = name ∧ r.phone = phone ∧ r.created_at = now ∧
      r.companions = none := by
  constructor
  · unfold register_rsvp
    simp [companionsTruthy]
  · refine ⟨⟨⟨name, st, phone, none⟩, now⟩, ?_, rfl, rfl, rfl, rfl⟩
    unfold list_rsvps register_rsvp
    apply List.mem_map.mpr
    refine ⟨⟨name, st, phone, none, now⟩, ?_, rfl⟩
    apply List.mem_filter.mpr
    exact ⟨List.mem_append_right _ (by simp [companionsTruthy]), by simp⟩

/-- C7 (code-bug evidence): the basic-auth dependency `get_current_user`
exists and, taken alone, behaves exactly as described — exact string
comparison of both secrets, 401 with a `WWW-Authenticate` challenge on
mismatch — but it is not attached to any route: no handler signature
declares it, so every mutating endpoint performs its operation without any
credential check.  The purchase handler below runs to success with no
credentials in sight. -/
theorem C7_auth_gate_not_attached :
    (appRoutes.filter (fun r => r.mutating)).all (fun r => !r.hasAuthDependency) = true ∧
    (update_gift_purchased ⟨100, [giftHeaders, ["u1", "Lamp", "url1", "TRUE", "", "t0"]]⟩
        "u1" "Mallory" "t1").toOption.isSome = true ∧
    get_current_user "admin" "secret" "wrong" "secret" = .error ⟨401, "Basic"⟩ ∧
    get_current_user "admin" "secret" "admin" "wrong" = .error ⟨401, "Basic"⟩ ∧
    get_current_user "admin" "secret" "admin" "secret" = .ok "admin" := by
  refine ⟨by decide, by decide, ?_, ?_, ?_⟩
  · unfold get_current_user
    rw [if_pos (Or.inl (by decide))]
  · unfold get_current_user
    rw [if_pos (Or.inr (by decide))]
  · unfold get_current_user
    rw [if_neg (by simp)]

/-- The column-1 cell is cell 0. -/
theorem firstCell_eq_cellOfRow_zero (r : Row) : firstCell r = cellOfRow r 0 := by
  cases r <;> rfl

/-- Any member of a page of `list_available_records` comes from a record of
the input whose available cell is `"TRUE"`, by the projection. -/
theorem mem_list_available_records {g : GiftPublic} {records : List Rec} {page limit : Int}
    (hg : g ∈ list_available_records records page limit) :
    ∃ r ∈ records, getField r "available" = "TRUE" ∧ g = projGift r := by
  unfold list_available_records at hg
  obtain ⟨rec, hrec, hproj⟩ := List.mem_map.mp hg
  obtain ⟨hin, htrue⟩ := List.mem_filter.mp
    (List.mem_mergeSort.mp (mem_of_mem_pySlice hrec))
  exact ⟨rec, hin, beq_iff_eq.mp htrue, hproj.symm⟩

theorem cellOfRow_purchasedRow (r : Row) (buyer now : String) (c : Nat) :
    cellOfRow (purchasedRow r buyer now) c =
      if c = 5 then now else if c = 4 then buyer
      else if c = 3 then "FALSE" else cellOfRow r c := by
  unfold purchasedRow
  rw [cellOfRow_setCellInRow, cellOfRow_setCellInRow, cellOfRow_setCellInRow]

theorem length_purchasedRow_ge (r : Row) (buyer now : String) :
    6 ≤ (purchasedRow r buyer now).length := by
  unfold purchasedRow
  rw [length_setCellInRow, length_setCellInRow, length_setCellInRow]
  omega

/-- C4: on a gifts sheet with the canonical header row, after
`mark_purchased` succeeds on the (unique) row of a stored gift, the gift's
id is excluded from every page of `list_available_gifts` — its available
cell is no longer the exact sentinel `"TRUE"` — while `get_gift_by_id`
still succeeds and returns the gift's original id, name and image_url
cells unchanged. -/
theorem C4_purchase_excludes_but_get_survives (ws : Ws) (data : List Row)
    (idStr buyer now : String)
    (hrows : ws.rows = giftHeaders :: data)
    (hid : idStr ≠ "id")
    (i : Nat) (hi : i < data.length)
    (hmatch : firstCell (data.getD i []) = idStr)
    (huniq : ∀ j, j < data.length → firstCell (data.getD j []) = idStr → j = i) :
    ∃ ws', update_gift_purchased ws idStr buyer now = .ok ws' ∧
      (∀ page limit : Int, ∀ g ∈ list_available_gifts ws' page limit, g.id ≠ idStr) ∧
      get_gift_by_id ws' idStr
          = .ok ⟨cellOfRow (data.getD i []) 0, cellOfRow (data.getD i []) 1,
                 cellOfRow (data.getD i []) 2⟩ ∧
      cellOfRow (data.getD i []) 0 = idStr := by
  obtain ⟨rc, rows⟩ := ws
  simp only at hrows
  subst hrows
  have hgdi : data.getD i [] = data[i] := by
    rw [List.getD_eq_getElem?_getD, List.getElem?_eq_getElem hi]
    rfl
  have hph : (firstCell giftHeaders == idStr) = false :=
    beq_eq_false_iff_ne.mpr (fun hcontra => hid hcontra.symm)
  have hbefore : ∀ j, j < data.length → j ≠ i →
      (firstCell (data.getD j []) == idStr) = false := by
    intro j hjlen hji
    apply beq_eq_false_iff_ne.mpr
    intro hcontra
    exact hji (huniq j hjlen hcontra)
  have hfdata : findFirstIdx (fun r => firstCell r == idStr) data = some i := by
    apply findFirstIdx_eq_some_of (List.getElem?_eq_getElem hi)
    · exact beq_iff_eq.mpr (by rw [← hgdi]; exact hmatch)
    · intro j hj y hy
      have hjlen : j < data.length := lt_trans hj hi
      have hyj : data[j] = y := by
        rw [List.getElem?_eq_getElem hjlen] at hy
        exact Option.some.inj hy
      have hgj : data.getD j [] = data[j] := by
        rw [List.getD_eq_getElem?_getD, List.getElem?_eq_getElem hjlen]
        rfl
      rw [← hyj, ← hgj]
      exact hbefore j hjlen (by omega)
  have hstep : ∀ t : List Row, findFirstIdx (fun r => firstCell r == idStr) (giftHeaders :: t)
      = (findFirstIdx (fun r => firstCell r == idStr) t).map (· + 1) := by
    intro t
    simp [findFirstIdx, hph]
  have hfind : findRowById ⟨rc, giftHeaders :: data⟩ idStr = some (i + 1) := by
    unfold findRowById
    rw [hstep, hfdata]
    rfl
  refine ⟨⟨rc, giftHeaders :: data.set i (purchasedRow (data.getD i []) buyer now)⟩,
    ?_, ?_, ?_, ?_⟩
  · unfold update_gift_purchased
    rw [hfind]
    simp only [List.set_cons_succ, List.getD_cons_succ]
  · intro page limit g hg
    unfold list_available_gifts at hg
    obtain ⟨rec, hin, htrue, hproj⟩ := mem_list_available_records hg
    obtain ⟨row0, hrow0, hreceq⟩ := List.mem_map.mp
      (show rec ∈ (data.set i (purchasedRow (data.getD i []) buyer now)).map (recOfRow giftHeaders) from hin)
    obtain ⟨j, hjlen, hjeq⟩ := List.mem_iff_getElem.mp hrow0
    have hjlen2 : j < data.length := by simpa using hjlen
    by_cases hji : j = i
    · have hrow0eq : row0 = purchasedRow (data.getD i []) buyer now := by
        rw [← hjeq, List.getElem_set]
        rw [if_pos hji.symm]
      rw [← hreceq, hrow0eq, getField_recOfRow_gift_available,
        cellOfRow_purchasedRow] at htrue
      simp at htrue
    · have hrow0eq : row0 = data[j] := by
        rw [← hjeq, List.getElem_set, if_neg (fun hcontra => hji hcontra.symm)]
      intro hgid
      have hfc : firstCell (data.getD j []) = idStr := by
        have hgj : data.getD j [] = data[j] := by
          rw [List.getD_eq_getElem?_getD, List.getElem?_eq_getElem hjlen2]
          rfl
        rw [hgj, ← hrow0eq, firstCell_eq_cellOfRow_zero,
          ← getField_recOfRow_gift_id, hreceq]
        rw [hproj] at hgid
        exact hgid
      exact hji (huniq j hjlen2 hfc)
  · have hpr0 : cellOfRow (purchasedRow (data.getD i []) buyer now) 0
        = cellOfRow (data.getD i []) 0 := by
      rw [cellOfRow_purchasedRow]
      simp
    have hfind2 : findRowById
        ⟨rc, giftHeaders :: data.set i (purchasedRow (data.getD i []) buyer now)⟩ idStr
        = some (i + 1) := by
      unfold findRowById
      rw [hstep]
      have : findFirstIdx (fun r => firstCell r == idStr)
          (data.set i (purchasedRow (data.getD i []) buyer now)) = some i := by
        apply findFirstIdx_eq_some_of
          (show (data.set i (purchasedRow (data.getD i []) buyer now))[i]?
              = some (purchasedRow (data.getD i []) buyer now) from by
            rw [List.getElem?_set, if_pos rfl, if_pos hi])
        · apply beq_iff_eq.mpr
          rw [firstCell_eq_cellOfRow_zero, hpr0, ← firstCell_eq_cellOfRow_zero]
          exact hmatch
        · intro j hj y hy
          have hjlen : j < data.length := lt_trans hj hi
          have hyj : data[j] = y := by
            rw [List.getElem?_set, if_neg (by omega), List.getElem?_eq_getElem hjlen] at hy
            exact Option.some.inj hy
          have hgj : data.getD j [] = data[j] := by
            rw [List.getD_eq_getElem?_getD, List.getElem?_eq_getElem hjlen]
            rfl
          rw [← hyj, ← hgj]
          exact hbefore j hjlen (by omega)
      rw [this]
      rfl
    unfold get_gift_by_id
    simp only [hfind2]
    have hgetrow : (giftHeaders :: data.set i (purchasedRow (data.getD i []) buyer now)).getD (i + 1) []
        = purchasedRow (data.getD i []) buyer now := by
      rw [List.getD_cons_succ, List.getD_eq_getElem?_getD, List.getElem?_set,
        if_pos rfl, if_pos hi]
      rfl
    have hrv : rowValues
        ⟨rc, giftHeaders :: data.set i (purchasedRow (data.getD i []) buyer now)⟩ 1
        = giftHeaders := rfl
    rw [hrv, hgetrow]
    have hlen6 : giftHeaders.length ≤ (purchasedRow (data.getD i []) buyer now).length := by
      have := length_purchasedRow_ge (data.getD i []) buyer now
      simp only [giftHeaders, List.length_cons, List.length_nil]
      omega
    have hdict : row_to_dict giftHeaders (purchasedRow (data.getD i []) buyer now)
        = some (giftHeaders.zip (purchasedRow (data.getD i []) buyer now)) := by
      unfold row_to_dict
      rw [if_pos hlen6]
    have hk0 : getKey (giftHeaders.zip (purchasedRow (data.getD i []) buyer now)) "id"
        = some ((purchasedRow (data.getD i []) buyer now).getD 0 "") := by
      have := getKey_zip giftHeaders (purchasedRow (data.getD i []) buyer now) 0
        (by decide) hlen6 (by intro j hj; omega)
      simpa using this
    have hk1 : getKey (giftHeaders.zip (purchasedRow (data.getD i []) buyer now)) "name"
        = some ((purchasedRow (data.getD i []) buyer now).getD 1 "") := by
      have := getKey_zip giftHeaders (purchasedRow (data.getD i []) buyer now) 1
        (by decide) hlen6 (by intro j hj; interval_cases j <;> decide)
      simpa using this
    have hk2 : getKey (giftHeaders.zip (purchasedRow (data.getD i []) buyer now)) "image_url"
        = some ((purchasedRow (data.getD i []) buyer now).getD 2 "") := by
      have := getKey_zip giftHeaders (purchasedRow (data.getD i []) buyer now) 2
        (by decide) hlen6 (by intro j hj; interval_cases j <;> decide)
      simpa using this
    simp only [hdict, hk0, hk1, hk2]
    have e0 : (purchasedRow (data.getD i []) buyer now).getD 0 ""
        = cellOfRow (data.getD i []) 0 := hpr0
    have e1 : (purchasedRow (data.getD i []) buyer now).getD 1 ""
        = cellOfRow (data.getD i []) 1 := by
      rw [show (purchasedRow (data.getD i []) buyer now).getD 1 ""
          = cellOfRow (purchasedRow (data.getD i []) buyer now) 1 from rfl,
        cellOfRow_purchasedRow]
      simp
    have e2 : (purchasedRow (data.getD i []) buyer now).getD 2 ""
        = cellOfRow (data.getD i []) 2 := by
      rw [show (purchasedRow (data.getD i []) buyer now).getD 2 ""
          = cellOfRow (purchasedRow (data.getD i []) buyer now) 2 from rfl,
        cellOfRow_purchasedRow]
      simp
    rw [e0, e1, e2]
  · rw [← firstCell_eq_cellOfRow_zero]
    exact hmatch

/-- C4 witness: a one-gift sheet; purchasing it hides it from the listing
but `get_gift_by_id` still returns its original projection. -/
theorem C4_purchase_excludes_but_get_survives_witness :
    ∃ ws', update_gift_purchased
        ⟨100, [giftHeaders, ["u1", "Lamp", "url1", "TRUE", "", "t0"]]⟩
        "u1" "Sam" "t1" = .ok ws' ∧
      (∀ g ∈ list_available_gifts ws' 1 10, g.id ≠ "u1") ∧
      get_gift_by_id ws' "u1" = .ok ⟨"u1", "Lamp", "url1"⟩ := by
  obtain ⟨ws', heq, hexcl, hget, _⟩ :=
    C4_purchase_excludes_but_get_survives
      ⟨100, [giftHeaders, ["u1", "Lamp", "url1", "TRUE", "", "t0"]]⟩
      [["u1", "Lamp", "url1", "TRUE", "", "t0"]] "u1" "Sam" "t1"
      rfl (by decide) 0 (by decide) (by decide)
      (by intro j hj _; simp at hj; omega)
  exact ⟨ws', heq, hexcl 1 10, hget.trans (by rfl)⟩

end Wedding
